import Mathlib

/-!
Shallow embedding of the crawler/normalization core of the
real-time-stock-mcp-service repository.

The network layer (`EastMoneyBaseSpider._get_json` / `._get_jsonp`) is not part
of the crawler modules themselves; each crawler method's behaviour is a pure
function of the outcome of that single call.  We therefore embed each method as
a function of a `fetch` oracle: `Except String JVal` for `_get_json` (an
exception message, or the decoded JSON document) and
`Except String (Option JVal)` for `_get_jsonp` (which may also return `None`
when the JSONP wrapper cannot be stripped).  The query parameters a method
builds do not influence its post-response control flow, so they are absorbed
into the oracle; the one parameter the claims inspect (the per-date filter
string of `get_industry_profit_comparison`) is embedded separately as
`mkFilter`.
-/

/-- Decoded JSON documents, as produced by `json.loads` / JSONP unwrapping.
Numbers are represented exactly as rationals (the crawler never computes with
them; it only compares `code` with 0 and passes values through).  Objects are
association lists whose keys are distinct after decoding (Python dicts). -/
inductive JVal where
  | null : JVal
  | bool : Bool → JVal
  | num : ℚ → JVal
  | str : String → JVal
  | arr : List JVal → JVal
  | obj : List (String × JVal) → JVal

/-- Python truthiness (`if x:`) for decoded JSON values: `None`, `False`, `0`,
`""`, `[]`, and the empty dict are falsy, everything else is truthy. -/
def JVal.truthy : JVal → Bool
  | .null => false
  | .bool b => b
  | .num q => !(q == 0)
  | .str s => !(s == "")
  | .arr xs => !xs.isEmpty
  | .obj fs => !fs.isEmpty

/-- Truthiness of a `dict.get` result (`None` when the key is absent). -/
def truthyOpt : Option JVal → Bool
  | none => false
  | some v => v.truthy

/-- Python `x == 0` on the result of `dict.get`: numeric zero and `False`
compare equal to `0`; `None`, strings, lists and dicts do not. -/
def pyEqZero : Option JVal → Bool
  | some (.num q) => q == 0
  | some (.bool b) => !b
  | _ => false

/-- Python `x is True` on the result of `dict.get`: only the boolean `True`. -/
def isTrueVal : Option JVal → Bool
  | some (.bool b) => b
  | _ => false

/-- Python `dict.get(key)` (`response.get(k)`): `AttributeError` when the
receiver is not a dict, otherwise the value or `None`. -/
def pyDictGet : JVal → String → Except String (Option JVal)
  | .obj fs, k => .ok (fs.lookup k)
  | _, _ => .error "AttributeError: object has no attribute get"

/-- Python `value[key]` string indexing: the value for a present key of a
dict, `KeyError` for an absent key, `TypeError` for a non-dict receiver. -/
def pyIndex : JVal → String → Except String JVal
  | .obj fs, k =>
    match fs.lookup k with
    | some v => .ok v
    | none => .error (String.append (String.append "KeyError: \x27" k) "\x27")
  | _, _ => .error "TypeError: value is not subscriptable by a string key"

/-- Python iteration (`for item in data` / `list.extend(data)`): the elements
of a list, the keys of a dict, the characters of a string; `TypeError`
otherwise. -/
def pyIter : JVal → Except String (List JVal)
  | .arr xs => .ok xs
  | .obj fs => .ok (fs.map fun p => .str p.1)
  | .str s => .ok (s.toList.map fun c => .str (String.singleton c))
  | _ => .error "TypeError: object is not iterable"

/-- The provider success-envelope check used by every financial-analysis
method: `response.get("code") == 0 and response.get("success") is True and
response.get("result")` (the last conjunct by truthiness). -/
def envelopeOk (fs : List (String × JVal)) : Bool :=
  pyEqZero (fs.lookup "code") && isTrueVal (fs.lookup "success") &&
    truthyOpt (fs.lookup "result")

/-- `response.get("message", "未知错误")`: the provider's message, or the
default when absent. -/
def getMsg (fs : List (String × JVal)) : JVal :=
  (fs.lookup "message").getD (.str "未知错误")

/-- The single-element error list `[{"error": m}]` produced by the
financial-analysis methods on failure. -/
def errList (m : JVal) : JVal := .arr [.obj [("error", m)]]

/-- Body of the `try` block of `get_financial_summary`: envelope check, then
`response["result"]["data"]` on success, or the message-carrying error list on
provider-reported failure.  Exceptions (non-dict response, missing key) are
the `.error` branch, caught by the method wrapper. -/
def finTry : JVal → Except String JVal
  | .obj fs =>
    if envelopeOk fs then do
      let res ← pyIndex (.obj fs) "result"
      pyIndex res "data"
    else
      .ok (errList (getMsg fs))
  | _ => .error "AttributeError: object has no attribute get"

/-- `FinancialAnalysisCrawler.get_financial_summary`, as a function of the
`_get_json` outcome.  The stock code and report-type code only shape the query
parameters, which the oracle absorbs. -/
def get_financial_summary (fetch : Except String JVal) : JVal :=
  match fetch with
  | .error e => errList (.str e)
  | .ok r =>
    match finTry r with
    | .ok v => v
    | .error e => errList (.str e)

/-- `FinancialAnalysisCrawler.get_holder_number`: its body is verbatim the
same post-response logic as `get_financial_summary` (only the query parameters
differ, and they are absorbed by the oracle). -/
def get_holder_number (fetch : Except String JVal) : JVal :=
  match fetch with
  | .error e => errList (.str e)
  | .ok r =>
    match finTry r with
    | .ok v => v
    | .error e => errList (.str e)

/-- Python `str.split()` with no separator: split on runs of whitespace and
drop empty pieces.  Implemented by structural recursion over the characters
(`cur` is the current chunk, reversed). -/
def splitWsAux : List Char → List Char → List String
  | [], cur => if cur.isEmpty then [] else [String.mk cur.reverse]
  | c :: cs, cur =>
    if c.isWhitespace then
      if cur.isEmpty then splitWsAux cs []
      else String.mk cur.reverse :: splitWsAux cs []
    else splitWsAux cs (c :: cur)

/-- Python `s.split()` for strings. -/
def pySplit (s : String) : List String := splitWsAux s.toList []

/-- The accumulation loop of `get_latest_report_dates` over the response rows:
for each row, read `REPORT_DATE` with `.get`; skip absent/falsy values; for a
truthy string take `split()[0]` (raising `IndexError` when the split is empty,
`AttributeError` for a truthy non-string) and append it unless already seen. -/
def reportDatesLoop : List JVal → List String → Except String (List String)
  | [], _ => .ok []
  | item :: rest, seen => do
    let rd ← pyDictGet item "REPORT_DATE"
    match rd with
    | none => reportDatesLoop rest seen
    | some v =>
      if v.truthy then
        match v with
        | .str s =>
          match pySplit s with
          | [] => .error "IndexError: list index out of range"
          | f :: _ =>
            if seen.contains f then reportDatesLoop rest seen
            else do
              let tail ← reportDatesLoop rest (f :: seen)
              pure (f :: tail)
        | _ => .error "AttributeError: object has no attribute split"
      else reportDatesLoop rest seen

/-- Body of the `try` block of `get_latest_report_dates`: envelope check; on
success index out `result.data`, return `[]` when it is falsy, otherwise run
the de-duplicating date loop; on provider failure return `[message]` (a plain
one-element list, not the error-dict shape). -/
def latestTry : JVal → Except String JVal
  | .obj fs =>
    if envelopeOk fs then do
      let res ← pyIndex (.obj fs) "result"
      let data ← pyIndex res "data"
      if data.truthy then do
        let items ← pyIter data
        let dates ← reportDatesLoop items []
        pure (.arr (dates.map .str))
      else
        pure (.arr [])
    else
      .ok (.arr [getMsg fs])
  | _ => .error "AttributeError: object has no attribute get"

/-- The f-string text `"获取最新报告日期时发生异常: "` prefixed to exception
diagnostics by `get_latest_report_dates`. -/
def exnNote : String := "获取最新报告日期时发生异常: "

/-- `FinancialAnalysisCrawler.get_latest_report_dates` as a function of the
`_get_json` outcome. -/
def get_latest_report_dates (fetch : Except String JVal) : JVal :=
  match fetch with
  | .error e => .arr [.str (String.append exnNote e)]
  | .ok r =>
    match latestTry r with
    | .ok v => v
    | .error e => .arr [.str (String.append exnNote e)]

/-- Auxiliary substring test: does `pat` occur contiguously in `l`? -/
def hasSubAux (pat : List Char) : List Char → Bool
  | [] => pat.isEmpty
  | c :: rest => pat.isPrefixOf (c :: rest) || hasSubAux pat rest

/-- Python substring containment `pat in s`, over the character sequences. -/
def containsSub (s pat : String) : Bool := hasSubAux pat.toList s.toList

/-- The exception-marker substring `"异常"` tested by
`get_industry_profit_comparison` on the first resolved date. -/
def exnMarker : String := "异常"

/-- The synthesized fallback date `f"{curr_year}-9-30"`. -/
def fallbackDate (curr_year : Nat) : String :=
  String.append (toString curr_year) "-9-30"

/-- The list of elements of a `JVal` array (every value flowing in here is an
array by construction of `get_latest_report_dates`). -/
def jarr : JVal → List JVal
  | .arr xs => xs
  | _ => []

/-- The fallback condition of `get_industry_profit_comparison`:
`not report_dates or (isinstance(report_dates[0], str) and "异常" in
report_dates[0])` applied to the freshly fetched date list. -/
def needsFallback : List JVal → Bool
  | [] => true
  | d :: _ =>
    match d with
    | .str s => containsSub s exnMarker
    | _ => false

/-- Date-list resolution of `get_industry_profit_comparison`: a supplied
non-empty `report_dates` is used as-is (`if not report_dates:` also fires on a
supplied empty list); otherwise the dates are fetched via
`get_latest_report_dates` and replaced by the single fallback date when the
fallback condition holds. -/
def resolveDates (fetchDates : Except String JVal)
    (report_dates : Option (List JVal)) (curr_year : Nat) : List JVal :=
  match report_dates with
  | some (d :: ds) => d :: ds
  | _ =>
    let fetched := jarr (get_latest_report_dates fetchDates)
    if needsFallback fetched then [.str (fallbackDate curr_year)] else fetched

/-- The per-date filter parameter
`f'(SECUCODE="{stock_code}")(REPORT_DATE=\x27{report_date}\x27)'` built by
`get_industry_profit_comparison` for each round trip. -/
def mkFilter (stock_code report_date : String) : String :=
  String.append "(SECUCODE=\""
    (String.append stock_code
      (String.append "\")(REPORT_DATE=\x27"
        (String.append report_date "\x27)")))

/-- Body of the per-date `try` block of `get_industry_profit_comparison`:
envelope check, then `all_data.extend(response["result"]["data"])` (iteration
semantics) on success, or extend with the single error row on
provider-reported failure; exceptions are the `.error` branch. -/
def cmpTry : JVal → Except String (List JVal)
  | .obj fs =>
    if envelopeOk fs then do
      let res ← pyIndex (.obj fs) "result"
      let data ← pyIndex res "data"
      pyIter data
    else
      .ok [.obj [("error", getMsg fs)]]
  | _ => .error "AttributeError: object has no attribute get"

/-- The rows contributed to `all_data` by one report date: the normalized rows
on success, or the single `{"error": ...}` marker row on that date's failure
(provider-reported or exceptional). -/
def contribOf (fetchCmp : JVal → Except String JVal) (d : JVal) : List JVal :=
  match fetchCmp d with
  | .error e => [.obj [("error", .str e)]]
  | .ok r =>
    match cmpTry r with
    | .ok rows => rows
    | .error e => [.obj [("error", .str e)]]

/-- The sequential per-date loop of `get_industry_profit_comparison`,
instrumented with the trace of dates queried: one round trip per date, in list
order, each date's contribution appended flat onto the accumulator. -/
def cmpLoop (fetchCmp : JVal → Except String JVal) :
    List JVal → List JVal × List JVal
  | [] => ([], [])
  | d :: rest =>
    let c := contribOf fetchCmp d
    let (t, acc) := cmpLoop fetchCmp rest
    (d :: t, c ++ acc)

/-- `FinancialAnalysisCrawler.get_industry_profit_comparison` as a function of
the two oracles: `fetchDates` is the `_get_json` outcome of the
`get_latest_report_dates` round trip (used only when `report_dates` is absent
or empty), `fetchCmp` maps each resolved report date to the `_get_json`
outcome of its round trip.  `curr_year` is `datetime.datetime.now().year`.
Returns the trace of dates queried (one per round trip, in call order) and the
accumulated flat result list. -/
def get_industry_profit_comparison (fetchDates : Except String JVal)
    (fetchCmp : JVal → Except String JVal)
    (report_dates : Option (List JVal)) (curr_year : Nat) :
    List JVal × JVal :=
  let dates := resolveDates fetchDates report_dates curr_year
  let (t, acc) := cmpLoop fetchCmp dates
  (t, .arr acc)

/-- `MarketSpider.get_plate_quotation` as a function of the `_get_jsonp`
outcome (`.ok none` models the `None` returned when the JSONP wrapper cannot
be stripped).  The method has no try/except: exceptions propagate as
`.error`.  The condition is `response and response.get("data") and
response["data"].get("diff")`, each conjunct by truthiness, and the success
value is `response["data"]["diff"]`. -/
def get_plate_quotation (fetch : Except String (Option JVal)) :
    Except String JVal :=
  match fetch with
  | .error e => .error e
  | .ok none => .ok (.arr [])
  | .ok (some r) =>
    if r.truthy then
      match pyDictGet r "data" with
      | .error e => .error e
      | .ok none => .ok (.arr [])
      | .ok (some data) =>
        if data.truthy then
          match pyDictGet data "diff" with
          | .error e => .error e
          | .ok none => .ok (.arr [])
          | .ok (some diff) =>
            if diff.truthy then .ok diff else .ok (.arr [])
        else .ok (.arr [])
    else .ok (.arr [])

/-- `MarketSpider.get_historical_fund_flow` as a function of the `_get_jsonp`
outcome: returns `response["data"]` when `response and response.get("data")`
is truthy, `None` otherwise; no try/except, so exceptions propagate. -/
def get_historical_fund_flow (fetch : Except String (Option JVal)) :
    Except String (Option JVal) :=
  match fetch with
  | .error e => .error e
  | .ok none => .ok none
  | .ok (some r) =>
    if r.truthy then
      match pyDictGet r "data" with
      | .error e => .error e
      | .ok (some data) =>
        if data.truthy then .ok (some data) else .ok none
      | .ok none => .ok none
    else .ok none


/-- All characters are decimal digits. -/
def allDigits (cs : List Char) : Bool := cs.all Char.isDigit

/-- The natural number denoted by a digit string. -/
def natOfDigits (cs : List Char) : Nat :=
  cs.foldl (fun a c => a * 10 + (c.toNat - 48)) 0

/-- Cut a character list at every `'.'`, keeping empty pieces. -/
def splitDotAux : List Char → List Char → List (List Char)
  | [], cur => [cur.reverse]
  | c :: cs, cur =>
    if c = '.' then cur.reverse :: splitDotAux cs []
    else splitDotAux cs (c :: cur)

/-- Python `float(s)` on an unsigned plain decimal literal: `"12"`, `"12."`,
`".5"`, `"12.5"`.  The parsed value is represented exactly as a rational
(`parse_kline_data` only stores it, never computes with it).  Exotic float
literal forms (exponents, `inf`, `nan`, padding) are outside the row format
and not modelled. -/
def parseUnsigned (cs : List Char) : Option ℚ :=
  match splitDotAux cs [] with
  | [w] =>
    if !w.isEmpty && allDigits w then some (mkRat (natOfDigits w) 1)
    else none
  | [w, f] =>
    if (!w.isEmpty || !f.isEmpty) && allDigits w && allDigits f
    then some (mkRat (natOfDigits w * 10 ^ f.length + natOfDigits f)
                 (10 ^ f.length))
    else none
  | _ => none

/-- Python `float(s)` with an optional sign; `none` models the `ValueError`
raised on a malformed literal. -/
def pyFloat (s : String) : Option ℚ :=
  match s.toList with
  | '-' :: rest => (parseUnsigned rest).map Neg.neg
  | '+' :: rest => parseUnsigned rest
  | cs => parseUnsigned cs

/-- Python `int(s)` with an optional sign; `none` models the `ValueError`
raised on a malformed literal (in particular `int` rejects a decimal point).
-/
def pyInt (s : String) : Option Int :=
  match s.toList with
  | '-' :: rest =>
    if !rest.isEmpty && allDigits rest then some (-(natOfDigits rest : Int))
    else none
  | '+' :: rest =>
    if !rest.isEmpty && allDigits rest then some (natOfDigits rest : Int)
    else none
  | cs =>
    if !cs.isEmpty && allDigits cs then some (natOfDigits cs : Int)
    else none

/-- One parsed K-line row: the dict built by `parse_kline_data` for a row with
at least 11 comma-separated fields (`open` is a Lean keyword, hence `open_`).
-/
structure KLineRecord where
  date : String
  open_ : ℚ
  close : ℚ
  high : ℚ
  low : ℚ
  volume : Int
  amount : ℚ
  amplitude : ℚ
  change_percent : ℚ
  change_amount : ℚ
  turnover_rate : ℚ
deriving DecidableEq

/-- The `i`-th field of a split row (total when `11 ≤ fields.length`, the only
case in which it is consulted). -/
def fieldAt (fields : List String) (i : Nat) : String := fields.getD i ""

/-- The record built from the fields of one retained row, in the source's
construction order; `none` models the `ValueError` raised by the first
malformed numeric field. -/
def buildRecord (fields : List String) : Option KLineRecord := do
  let o ← pyFloat (fieldAt fields 1)
  let c ← pyFloat (fieldAt fields 2)
  let h ← pyFloat (fieldAt fields 3)
  let l ← pyFloat (fieldAt fields 4)
  let v ← pyInt (fieldAt fields 5)
  let am ← pyFloat (fieldAt fields 6)
  let ap ← pyFloat (fieldAt fields 7)
  let cp ← pyFloat (fieldAt fields 8)
  let ca ← pyFloat (fieldAt fields 9)
  let tr ← pyFloat (fieldAt fields 10)
  pure ⟨fieldAt fields 0, o, c, h, l, v, am, ap, cp, ca, tr⟩

/-- Python `s.split(",")` over the characters: cut at every comma, keeping
empty pieces (`"".split(",") == [""]`). -/
def splitCommaAux : List Char → List Char → List String
  | [], cur => [String.mk cur.reverse]
  | c :: cs, cur =>
    if c = ',' then String.mk cur.reverse :: splitCommaAux cs []
    else splitCommaAux cs (c :: cur)

/-- Python `kline.split(",")`. -/
def pySplitComma (s : String) : List String := splitCommaAux s.toList []

/-- `parse_kline_data` from `src/mcp_tools/kline_data.py`: split each row on
`","`; rows with fewer than 11 fields are skipped; for a retained row the
typed record is appended, and a malformed numeric field raises a conversion
error that aborts the whole call (`.error`; the message text of the Python
`ValueError` is abstracted).  There is no try/except in this function. -/
def parse_kline_data : List String → Except String (List KLineRecord)
  | [] => .ok []
  | kline :: rest =>
    let fields := pySplitComma kline
    if fields.length ≥ 11 then
      match buildRecord fields with
      | some r => (parse_kline_data rest).map (r :: ·)
      | none =>
        .error (String.append "ValueError: could not convert field of row: "
          kline)
    else parse_kline_data rest

/-- Does a row carry the `{"error": ...}` mapping shape? -/
def isErrMapRow : JVal → Bool
  | .obj fs => fs.any fun p => p.1 == "error"
  | _ => false

/-- The record contributed by one input row of `parse_kline_data`: the parsed
record for a retained row, `none` for a dropped short row. -/
def rowRecordOpt (k : String) : Option KLineRecord :=
  if (pySplitComma k).length ≥ 11 then buildRecord (pySplitComma k) else none

/-- Spec-side statement of de-duplication: keep the first occurrence of each
element, in order of first occurrence. -/
def firstOccur : List String → List String
  | [] => []
  | d :: rest => d :: firstOccur (rest.filter fun x => x != d)
termination_by l => l.length
decreasing_by
  simp_wf
  exact Nat.lt_succ_of_le (List.length_filter_le _ _)

/-- Code-side seen-set loop of `get_latest_report_dates`, restricted to the
extracted truncated date strings. -/
def collectLoop : List String → List String → List String
  | [], _ => []
  | d :: rest, seen =>
    if seen.contains d then collectLoop rest seen
    else d :: collectLoop rest (d :: seen)

/-- The truncated (`split()[0]`) date of a response row (a total helper,
meaningful on rows satisfying `goodRow`). -/
def rowDate (row : JVal) : String :=
  match row with
  | .obj fs =>
    match fs.lookup "REPORT_DATE" with
    | some (.str s) => (pySplit s).headD ""
    | _ => ""
  | _ => ""

/-- A well-formed response row: a mapping whose `REPORT_DATE` is a string
with a non-empty whitespace-split (e.g. `"2024-09-30 00:00:00"`). -/
def goodRow (row : JVal) : Prop :=
  ∃ fs s, row = JVal.obj fs ∧ List.lookup "REPORT_DATE" fs = some (JVal.str s)
    ∧ pySplit s ≠ []

/-- The length of a `JVal` array (0 on other constructors). -/
def arrLen : JVal → Nat
  | .arr xs => xs.length
  | _ => 0

/-- A prefix of a list is a prefix of any right-extension of it. -/
theorem isPrefixOf_append_right (p l t : List Char) :
    p.isPrefixOf l = true → p.isPrefixOf (l ++ t) = true := by
  induction p generalizing l with
  | nil => intro _; cases l <;> simp [List.isPrefixOf]
  | cons c cs ih =>
    intro h
    cases l with
    | nil => simp [List.isPrefixOf] at h
    | cons d ds =>
      simp only [List.isPrefixOf, List.cons_append, Bool.and_eq_true] at h ⊢
      exact ⟨h.1, ih ds h.2⟩

/-- A substring occurrence survives appending on the right. -/
theorem hasSubAux_append_right (pat l t : List Char) :
    hasSubAux pat l = true → hasSubAux pat (l ++ t) = true := by
  induction l with
  | nil =>
    intro h
    simp only [hasSubAux, List.isEmpty_iff] at h
    subst h
    cases t with
    | nil => simp [hasSubAux]
    | cons c cs => simp [hasSubAux, List.isPrefixOf]
  | cons c cs ih =>
    intro h
    simp only [hasSubAux, Bool.or_eq_true] at h ⊢
    rcases h with h | h
    · exact Or.inl (isPrefixOf_append_right _ _ _ h)
    · exact Or.inr (ih h)

/-- C1: `get_financial_summary` (for any stock code and report-type code,
absorbed by the oracle) returns `result.data` verbatim when the decoded
response satisfies `code == 0`, `success is True` and has a truthy `result`;
returns the single-element list `[{"error": message}]` (message from the
response, defaulting to `"未知错误"` when absent) when the envelope reports
failure; returns `[{"error": str(e)}]` when the request or decode raises; and
never raises past this boundary (the embedding is a total function into
`JVal`, not `Except`). -/
theorem get_financial_summary_spec (fs : List (String × JVal)) (res d : JVal)
    (e : String) :
    (envelopeOk fs = true → fs.lookup "result" = some res →
      pyIndex res "data" = Except.ok d →
      get_financial_summary (Except.ok (JVal.obj fs)) = d)
    ∧ (envelopeOk fs = false →
      get_financial_summary (Except.ok (JVal.obj fs)) = errList (getMsg fs))
    ∧ get_financial_summary (Except.error e) = errList (JVal.str e) := by
  refine ⟨?_, ?_, rfl⟩
  · intro hok hres hdata
    have h1 : pyIndex (JVal.obj fs) "result" = Except.ok res := by
      simp [pyIndex, hres]
    simp [get_financial_summary, finTry, hok, h1, hdata, bind, Except.bind]
  · intro hbad
    simp [get_financial_summary, finTry, hbad]

/-- Witness for C1: a concrete successful envelope yields its `result.data`
verbatim, and a concrete failing envelope yields the message-carrying error
list. -/
theorem get_financial_summary_spec_witness :
    get_financial_summary (Except.ok (JVal.obj
      [("code", JVal.num 0), ("success", JVal.bool true),
       ("result", JVal.obj [("data", JVal.arr [JVal.str "row1"])])]))
      = JVal.arr [JVal.str "row1"]
    ∧ get_financial_summary (Except.ok (JVal.obj
      [("code", JVal.num 9999), ("success", JVal.bool false),
       ("message", JVal.str "参数错误")]))
      = errList (JVal.str "参数错误") :=
  ⟨(get_financial_summary_spec
      [("code", JVal.num 0), ("success", JVal.bool true),
       ("result", JVal.obj [("data", JVal.arr [JVal.str "row1"])])]
      (JVal.obj [("data", JVal.arr [JVal.str "row1"])])
      (JVal.arr [JVal.str "row1"]) "e").1 (by decide) rfl rfl,
   (get_financial_summary_spec
      [("code", JVal.num 9999), ("success", JVal.bool false),
       ("message", JVal.str "参数错误")]
      JVal.null JVal.null "e").2.1 (by decide)⟩

/-- C5: on provider-reported failure `get_latest_report_dates` returns
`[message]`, a single-element plain-string list (not the `{"error": ...}`
mapping shape used by the other financial-analysis methods), and on a raised
transport/decode exception it returns a single-element list whose string
carries the exception-marking text `"获取最新报告日期时发生异常: "` prefixed
to the exception text — a shape distinct from the provider-failure string. -/
theorem get_latest_report_dates_error_shapes (fs : List (String × JVal))
    (e : String) :
    (envelopeOk fs = false →
      get_latest_report_dates (Except.ok (JVal.obj fs)) = JVal.arr [getMsg fs]
      ∧ ∀ m, fs.lookup "message" = some (JVal.str m) →
          get_latest_report_dates (Except.ok (JVal.obj fs))
            = JVal.arr [JVal.str m]
          ∧ isErrMapRow (JVal.str m) = false)
    ∧ get_latest_report_dates (Except.error e)
        = JVal.arr [JVal.str (String.append exnNote e)]
      ∧ containsSub (String.append exnNote e) exnMarker = true := by
  refine ⟨?_, rfl, ?_⟩
  · intro hbad
    have hmain : get_latest_report_dates (Except.ok (JVal.obj fs))
        = JVal.arr [getMsg fs] := by
      simp [get_latest_report_dates, latestTry, hbad]
    refine ⟨hmain, fun m hm => ⟨?_, rfl⟩⟩
    rw [hmain]
    simp [getMsg, hm]
  · show hasSubAux exnMarker.toList (String.append exnNote e).toList = true
    have h1 : (String.append exnNote e).toList = exnNote.toList ++ e.toList := by
      simp [String.toList, String.append]
    rw [h1]
    exact hasSubAux_append_right _ _ _ (by decide)

/-- Witness for C5: a concrete failing envelope yields the plain one-element
string list carrying the message, and a concrete exception yields the
prefixed diagnostic string. -/
theorem get_latest_report_dates_error_shapes_witness :
    get_latest_report_dates (Except.ok (JVal.obj
      [("code", JVal.num 500), ("message", JVal.str "访问频繁")]))
      = JVal.arr [JVal.str "访问频繁"]
    ∧ get_latest_report_dates (Except.error "timeout")
      = JVal.arr [JVal.str (String.append exnNote "timeout")] :=
  ⟨(((get_latest_report_dates_error_shapes
      [("code", JVal.num 500), ("message", JVal.str "访问频繁")] "timeout").1
      (by decide)).2 "访问频繁" rfl).1,
   (get_latest_report_dates_error_shapes
      [("code", JVal.num 500), ("message", JVal.str "访问频繁")]
      "timeout").2.1⟩

/-- C8: on a raised transport/decode exception, each market-crawler method
(`get_plate_quotation`, `get_historical_fund_flow`) lets the exception
propagate unmarked (`.error e` passes through, there is no try/except),
whereas each financial-analysis method converts it into its error-marker
shape and does not raise (their embeddings return plain values, never
`.error`): the error-dict list for `get_financial_summary` and
`get_holder_number`, the prefixed diagnostic string list for
`get_latest_report_dates`, and the per-date error row inside the accumulated
list for `get_industry_profit_comparison`. -/
theorem exception_propagation_split (e : String) (d : JVal) (y : Nat)
    (fetchD : Except String JVal) :
    get_plate_quotation (Except.error e) = Except.error e
    ∧ get_historical_fund_flow (Except.error e) = Except.error e
    ∧ get_financial_summary (Except.error e) = errList (JVal.str e)
    ∧ get_holder_number (Except.error e) = errList (JVal.str e)
    ∧ get_latest_report_dates (Except.error e)
        = JVal.arr [JVal.str (String.append exnNote e)]
    ∧ (get_industry_profit_comparison fetchD (fun _ => Except.error e)
        (some [d]) y).2 = JVal.arr [JVal.obj [("error", JVal.str e)]] :=
  ⟨rfl, rfl, rfl, rfl, rfl, rfl⟩

/-- C7 (amended): `get_plate_quotation` returns an empty list — not null and
not an exception — when the decoded JSONP payload is null, or is a mapping
lacking a truthy `data` field, or whose truthy `data` field is a mapping
lacking a truthy `diff` field; when `data.diff` is present and truthy it
returns that sequence unchanged.  (When the truthy payload or its truthy
`data` value is not a mapping, the attribute access raises and the exception
propagates — see the counterexample.) -/
theorem get_plate_quotation_spec (fs ds : List (String × JVal))
    (diff : JVal) :
    get_plate_quotation (Except.ok none) = Except.ok (JVal.arr [])
    ∧ (List.lookup "data" fs = none →
        get_plate_quotation (Except.ok (some (JVal.obj fs)))
          = Except.ok (JVal.arr []))
    ∧ (∀ dv, List.lookup "data" fs = some dv → dv.truthy = false →
        get_plate_quotation (Except.ok (some (JVal.obj fs)))
          = Except.ok (JVal.arr []))
    ∧ (List.lookup "data" fs = some (JVal.obj ds) → ds ≠ [] →
        List.lookup "diff" ds = none →
        get_plate_quotation (Except.ok (some (JVal.obj fs)))
          = Except.ok (JVal.arr []))
    ∧ (∀ dv, List.lookup "data" fs = some (JVal.obj ds) → ds ≠ [] →
        List.lookup "diff" ds = some dv → dv.truthy = false →
        get_plate_quotation (Except.ok (some (JVal.obj fs)))
          = Except.ok (JVal.arr []))
    ∧ (List.lookup "data" fs = some (JVal.obj ds) → ds ≠ [] →
        List.lookup "diff" ds = some diff → diff.truthy = true →
        get_plate_quotation (Except.ok (some (JVal.obj fs)))
          = Except.ok diff) := by
  refine ⟨rfl, ?_, ?_, ?_, ?_, ?_⟩
  · intro h
    simp [get_plate_quotation, pyDictGet, h]
  · intro dv h htr
    simp [get_plate_quotation, pyDictGet, h, htr]
  · intro h hne hd
    simp [get_plate_quotation, pyDictGet, h, hd, JVal.truthy,
      List.isEmpty_iff, hne]
  · intro dv h hne hd htr
    have hfs : fs ≠ [] := by rintro rfl; simp at h
    have hfst : (JVal.obj fs).truthy = true := by
      simp [JVal.truthy, List.isEmpty_iff, hfs]
    have hdst : (JVal.obj ds).truthy = true := by
      simp [JVal.truthy, List.isEmpty_iff, hne]
    simp [get_plate_quotation, pyDictGet, h, hd, htr, hfst, hdst]
  · intro h hne hd htr
    have hfs : fs ≠ [] := by rintro rfl; simp at h
    have hfst : (JVal.obj fs).truthy = true := by
      simp [JVal.truthy, List.isEmpty_iff, hfs]
    have hdst : (JVal.obj ds).truthy = true := by
      simp [JVal.truthy, List.isEmpty_iff, hne]
    simp [get_plate_quotation, pyDictGet, h, hd, htr, hfst, hdst]

/-- C7 counterexample: a decoded payload whose truthy `data` value is a list
(so it lacks a `data.diff` field) makes `get_plate_quotation` raise — the
`.get` attribute access fails and the exception propagates — rather than
return the empty list the claim promises for every payload lacking a truthy
`data.diff`. -/
theorem get_plate_quotation_raises_counterexample :
    get_plate_quotation (Except.ok (some (JVal.obj
      [("data", JVal.arr [JVal.num 1])])))
      = Except.error "AttributeError: object has no attribute get" := rfl

/-- Witness for C7 (amended): a null payload yields the empty list, a payload
whose `data` mapping lacks `diff` yields the empty list, and a payload with a
truthy `data.diff` sequence yields that sequence unchanged. -/
theorem get_plate_quotation_spec_witness :
    get_plate_quotation (Except.ok none) = Except.ok (JVal.arr [])
    ∧ get_plate_quotation (Except.ok (some (JVal.obj
        [("data", JVal.obj [("total", JVal.num 0)])])))
        = Except.ok (JVal.arr [])
    ∧ get_plate_quotation (Except.ok (some (JVal.obj
        [("data", JVal.obj [("diff", JVal.arr [JVal.str "row"])])])))
        = Except.ok (JVal.arr [JVal.str "row"]) :=
  ⟨(get_plate_quotation_spec [] [] JVal.null).1,
   (get_plate_quotation_spec [("data", JVal.obj [("total", JVal.num 0)])]
      [("total", JVal.num 0)] JVal.null).2.2.2.1 rfl (List.cons_ne_nil _ _) rfl,
   (get_plate_quotation_spec
      [("data", JVal.obj [("diff", JVal.arr [JVal.str "row"])])]
      [("diff", JVal.arr [JVal.str "row"])]
      (JVal.arr [JVal.str "row"])).2.2.2.2.2 rfl (List.cons_ne_nil _ _) rfl rfl⟩

/-- C9: a text row with exactly 11 comma-separated fields whose
numeric-position fields parse produces exactly one typed record whose fields
equal the parsed positional values (date string at position 0; open, close,
high, low at 1-4; volume as integer at 5; amount, amplitude, change-percent,
change-amount, turnover-rate at 6-10); and a row with fewer than 11 fields
produces no record and raises no error. -/
theorem parse_kline_row_spec (k : String) (rest : List String)
    (r : KLineRecord) (o c h l am ap cp ca tr : ℚ) (v : Int) :
    ((pySplitComma k).length = 11 → buildRecord (pySplitComma k) = some r →
      parse_kline_data (k :: rest) = (parse_kline_data rest).map (r :: ·))
    ∧ ((pySplitComma k).length < 11 →
      parse_kline_data (k :: rest) = parse_kline_data rest)
    ∧ (∀ fields : List String,
        pyFloat (fieldAt fields 1) = some o →
        pyFloat (fieldAt fields 2) = some c →
        pyFloat (fieldAt fields 3) = some h →
        pyFloat (fieldAt fields 4) = some l →
        pyInt (fieldAt fields 5) = some v →
        pyFloat (fieldAt fields 6) = some am →
        pyFloat (fieldAt fields 7) = some ap →
        pyFloat (fieldAt fields 8) = some cp →
        pyFloat (fieldAt fields 9) = some ca →
        pyFloat (fieldAt fields 10) = some tr →
        buildRecord fields
          = some ⟨fieldAt fields 0, o, c, h, l, v, am, ap, cp, ca, tr⟩) := by
  refine ⟨?_, ?_, ?_⟩
  · intro hlen hrec
    simp [parse_kline_data, hlen, hrec]
  · intro hlen
    have hnot : ¬ (11 ≤ (pySplitComma k).length) := by omega
    simp [parse_kline_data, hnot]
  · intro fields h1 h2 h3 h4 h5 h6 h7 h8 h9 h10
    simp [buildRecord, h1, h2, h3, h4, h5, h6, h7, h8, h9, h10, bind,
      Option.bind]

/-- Witness for C9: a concrete well-formed 11-field row parses to exactly one
record, and a concrete short row is dropped without error. -/
theorem parse_kline_row_spec_witness :
    parse_kline_data
      ["2024-01-02,10.5,11.0,11.5,10.0,123456,98765.4,3.2,1.5,0.16,2.35"]
      = Except.ok [⟨"2024-01-02", mkRat 21 2, mkRat 11 1, mkRat 23 2,
          mkRat 10 1, 123456, mkRat 987654 10, mkRat 32 10, mkRat 15 10,
          mkRat 16 100, mkRat 235 100⟩]
    ∧ parse_kline_data ["2024-01-02,10.5,11.0"] = Except.ok [] :=
  ⟨(parse_kline_row_spec
      "2024-01-02,10.5,11.0,11.5,10.0,123456,98765.4,3.2,1.5,0.16,2.35" []
      ⟨"2024-01-02", mkRat 21 2, mkRat 11 1, mkRat 23 2, mkRat 10 1, 123456,
        mkRat 987654 10, mkRat 32 10, mkRat 15 10, mkRat 16 100,
        mkRat 235 100⟩
      0 0 0 0 0 0 0 0 0 0).1 (by decide) (by decide),
   (parse_kline_row_spec "2024-01-02,10.5,11.0" []
      ⟨"", 0, 0, 0, 0, 0, 0, 0, 0, 0, 0⟩
      0 0 0 0 0 0 0 0 0 0).2.1 (by decide)⟩

/-- C4 counterexample: `parse_kline_data` does raise for some input row list —
a row that meets the 11-field count but whose open-price field is not numeric
makes the conversion raise, so the call does not return a value. -/
theorem parse_kline_raises_counterexample :
    (parse_kline_data ["2024-01-01,x,1,1,1,1,1,1,1,1,1"]).isOk = false := by
  decide

/-- C4 (amended): rows failing the minimum-field-count check are dropped
without error, and `parse_kline_data` never raises when every retained row
(11 or more fields) has parseable numeric content — it then returns exactly
the records of the retained rows in order.  A retained row with malformed
numeric content, however, raises a conversion error that aborts the whole
batch and propagates out of `parse_kline_data` (the `get_kline` caller
catches it). -/
theorem parse_kline_total_on_wellformed (klines : List String)
    (hgood : ∀ k ∈ klines, (pySplitComma k).length < 11 ∨
      (buildRecord (pySplitComma k)).isSome = true) :
    parse_kline_data klines = Except.ok (klines.filterMap rowRecordOpt) := by
  induction klines with
  | nil => rfl
  | cons k rest ih =>
    have hk := hgood k (List.mem_cons_self k rest)
    have hrest : ∀ k' ∈ rest, (pySplitComma k').length < 11 ∨
        (buildRecord (pySplitComma k')).isSome = true :=
      fun k' hk' => hgood k' (List.mem_cons_of_mem k hk')
    rcases hk with hshort | hsome
    · have hnot : ¬ (11 ≤ (pySplitComma k).length) := by omega
      simp [parse_kline_data, hnot, List.filterMap_cons, rowRecordOpt,
        ih hrest]
    · rcases Option.isSome_iff_exists.mp hsome with ⟨r, hr⟩
      by_cases hlen : 11 ≤ (pySplitComma k).length
      · simp [parse_kline_data, hlen, hr, List.filterMap_cons, rowRecordOpt,
          ih hrest, Except.map]
      · simp [parse_kline_data, hlen, List.filterMap_cons, rowRecordOpt,
          ih hrest]

/-- Witness for C4 (amended): a concrete batch of one short row and one
well-formed row parses without raising, dropping the short row. -/
theorem parse_kline_total_on_wellformed_witness :
    parse_kline_data
      ["2024-01-02,1.5", "2024-01-03,1,2,3,4,5,6,7,8,9,10"]
      = Except.ok (["2024-01-02,1.5",
          "2024-01-03,1,2,3,4,5,6,7,8,9,10"].filterMap rowRecordOpt) :=
  parse_kline_total_on_wellformed _ (by
    intro k hk
    simp only [List.mem_cons, List.not_mem_nil, or_false] at hk
    rcases hk with h | h
    · subst h; left; decide
    · subst h; right; decide)

/-- The instrumented per-date loop queries exactly the dates of its input
list, in order, and accumulates the flat concatenation of the per-date
contributions. -/
theorem cmpLoop_spec (fetchCmp : JVal → Except String JVal) (l : List JVal) :
    (cmpLoop fetchCmp l).1 = l
    ∧ (cmpLoop fetchCmp l).2 = l.flatMap (contribOf fetchCmp) := by
  induction l with
  | nil => exact ⟨rfl, rfl⟩
  | cons d rest ih =>
    refine ⟨?_, ?_⟩ <;> simp [cmpLoop, ih.1, ih.2]

/-- C3: for a fixed per-date response fixture, `get_industry_profit_comparison`
issues exactly one additional round trip per entry of the resolved report-date
list (the trace equals that list), appends each date's normalized rows (or its
single error-marker row) in per-date call order into one flat list, and the
length of the accumulated list is invariant under any permutation of the
supplied date list. -/
theorem industry_roundtrips_and_perm (fetchD : Except String JVal)
    (fetchC : JVal → Except String JVal) (rd : Option (List JVal)) (y : Nat) :
    (get_industry_profit_comparison fetchD fetchC rd y).1
      = resolveDates fetchD rd y
    ∧ (get_industry_profit_comparison fetchD fetchC rd y).2
      = JVal.arr ((resolveDates fetchD rd y).flatMap (contribOf fetchC))
    ∧ ∀ l l' : List JVal, l.Perm l' →
        arrLen (get_industry_profit_comparison fetchD fetchC (some l) y).2
          = arrLen (get_industry_profit_comparison fetchD fetchC (some l') y).2 := by
  refine ⟨?_, ?_, ?_⟩
  · simp [get_industry_profit_comparison, (cmpLoop_spec fetchC _).1]
  · simp [get_industry_profit_comparison, (cmpLoop_spec fetchC _).2]
  · intro l l' hperm
    cases l with
    | nil =>
      have : l' = [] := hperm.nil_eq.symm
      subst this
      rfl
    | cons d ds =>
      cases l' with
      | nil =>
        have := hperm.length_eq
        simp at this
      | cons d' ds' =>
        have h1 : arrLen (get_industry_profit_comparison fetchD fetchC
            (some (d :: ds)) y).2 = ((d :: ds).flatMap (contribOf fetchC)).length := by
          simp [get_industry_profit_comparison, resolveDates, arrLen,
            (cmpLoop_spec fetchC _).2]
        have h2 : arrLen (get_industry_profit_comparison fetchD fetchC
            (some (d' :: ds')) y).2 = ((d' :: ds').flatMap (contribOf fetchC)).length := by
          simp [get_industry_profit_comparison, resolveDates, arrLen,
            (cmpLoop_spec fetchC _).2]
        rw [h1, h2, List.length_flatMap, List.length_flatMap]
        exact (hperm.map _).sum_eq

/-- Witness for C3: the permutation-invariance clause at a concrete two-date
list and its transposition. -/
theorem industry_roundtrips_and_perm_witness :
    arrLen (get_industry_profit_comparison (Except.error "e")
        (fun _ => Except.error "boom")
        (some [JVal.str "2024-09-30", JVal.str "2024-06-30"]) 2025).2
      = arrLen (get_industry_profit_comparison (Except.error "e")
        (fun _ => Except.error "boom")
        (some [JVal.str "2024-06-30", JVal.str "2024-09-30"]) 2025).2 :=
  (industry_roundtrips_and_perm (Except.error "e") (fun _ => Except.error "boom")
      (some [JVal.str "2024-09-30", JVal.str "2024-06-30"]) 2025).2.2
    [JVal.str "2024-09-30", JVal.str "2024-06-30"]
    [JVal.str "2024-06-30", JVal.str "2024-09-30"]
    (List.Perm.swap _ _ _)

/-- Every list is a prefix of itself. -/
theorem isPrefixOf_self (l : List Char) : l.isPrefixOf l = true := by
  induction l with
  | nil => rfl
  | cons c cs ih => simp [List.isPrefixOf, ih]

/-- A substring occurrence survives prepending on the left. -/
theorem hasSubAux_append_left (pat l t : List Char) :
    hasSubAux pat t = true → hasSubAux pat (l ++ t) = true := by
  induction l with
  | nil => exact fun h => h
  | cons c cs ih =>
    intro h
    simp only [List.cons_append, hasSubAux, Bool.or_eq_true]
    exact Or.inr (ih h)

/-- A pattern occurs in itself followed by anything. -/
theorem hasSubAux_self_append (pat t : List Char) :
    hasSubAux pat (pat ++ t) = true := by
  cases pat with
  | nil =>
    cases t with
    | nil => rfl
    | cons c cs => simp [hasSubAux, List.isPrefixOf]
  | cons c cs =>
    simp only [List.cons_append, hasSubAux, Bool.or_eq_true]
    exact Or.inl (isPrefixOf_append_right _ _ _ (isPrefixOf_self _))

/-- Characters of an appended string. -/
theorem toList_append (a b : String) :
    (String.append a b).toList = a.toList ++ b.toList := by
  simp [String.toList, String.append]

/-- The fallback condition of `get_industry_profit_comparison`, as a
proposition: the fetched list is empty, or its first element is a string
containing the exception marker. -/
theorem needsFallback_iff (l : List JVal) :
    needsFallback l = true ↔
      (l = [] ∨ ∃ s rest, l = JVal.str s :: rest ∧
        containsSub s exnMarker = true) := by
  cases l with
  | nil => simp [needsFallback]
  | cons d rest => cases d <;> simp [needsFallback]

/-- C6: when `get_industry_profit_comparison` is called without `report_dates`
it invokes `get_latest_report_dates`; exactly when that result is empty or its
first element is a string containing the exception-marker substring `"异常"`,
the date list is replaced by the single synthesized fallback date
`"{currentYear}-9-30"` and the method proceeds (issues its per-date round
trips) with that one-element list; otherwise it proceeds with the fetched
list unchanged. -/
theorem industry_fallback_spec (fetchD : Except String JVal)
    (fetchC : JVal → Except String JVal) (y : Nat) :
    ((jarr (get_latest_report_dates fetchD) = [] ∨
        ∃ s rest, jarr (get_latest_report_dates fetchD) = JVal.str s :: rest ∧
          containsSub s exnMarker = true) →
      (get_industry_profit_comparison fetchD fetchC none y).1
        = [JVal.str (fallbackDate y)])
    ∧ (¬(jarr (get_latest_report_dates fetchD) = [] ∨
        ∃ s rest, jarr (get_latest_report_dates fetchD) = JVal.str s :: rest ∧
          containsSub s exnMarker = true) →
      (get_industry_profit_comparison fetchD fetchC none y).1
        = jarr (get_latest_report_dates fetchD)) := by
  constructor
  · intro hcond
    have hnf : needsFallback (jarr (get_latest_report_dates fetchD)) = true :=
      (needsFallback_iff _).mpr hcond
    simp [get_industry_profit_comparison, (cmpLoop_spec fetchC _).1,
      resolveDates, hnf]
  · intro hcond
    have hnf : needsFallback (jarr (get_latest_report_dates fetchD)) = false :=
      Bool.eq_false_iff.mpr fun h => hcond ((needsFallback_iff _).mp h)
    simp [get_industry_profit_comparison, (cmpLoop_spec fetchC _).1,
      resolveDates, hnf]

/-- Witness for C6: with a concrete failing date fetch, the fetched list's
first element carries the marker and the method proceeds with exactly the
synthesized fallback date. -/
theorem industry_fallback_spec_witness :
    (get_industry_profit_comparison (Except.error "boom")
        (fun _ => Except.error "x") none 2025).1
      = [JVal.str (fallbackDate 2025)] :=
  (industry_fallback_spec (Except.error "boom") (fun _ => Except.error "x")
      2025).1
    (Or.inr ⟨String.append exnNote "boom", [], rfl, by decide⟩)

/-- C10: when called without `report_dates` and the date fetch reports a
provider failure whose message string does not contain `"异常"`, no fallback
is synthesized: the message string itself becomes the one-element date list,
the method issues exactly one per-date round trip with it (the trace is
`[message]` and the result is that single date's contribution), and the
filter built for a date contains the date — here the message — verbatim. -/
theorem industry_uses_message_verbatim (fs : List (String × JVal))
    (m stock : String) (fetchC : JVal → Except String JVal) (y : Nat)
    (hbad : envelopeOk fs = false)
    (hmsg : List.lookup "message" fs = some (JVal.str m))
    (hnomark : containsSub m exnMarker = false) :
    (get_industry_profit_comparison (Except.ok (JVal.obj fs)) fetchC none y).1
      = [JVal.str m]
    ∧ (get_industry_profit_comparison (Except.ok (JVal.obj fs)) fetchC none y).2
      = JVal.arr (contribOf fetchC (JVal.str m))
    ∧ containsSub (mkFilter stock m) m = true := by
  have hlatest : get_latest_report_dates (Except.ok (JVal.obj fs))
      = JVal.arr [JVal.str m] := by
    simp [get_latest_report_dates, latestTry, hbad, getMsg, hmsg]
  have hres : resolveDates (Except.ok (JVal.obj fs)) none y = [JVal.str m] := by
    simp [resolveDates, hlatest, jarr, needsFallback, hnomark]
  refine ⟨?_, ?_, ?_⟩
  · simp [get_industry_profit_comparison, hres, (cmpLoop_spec fetchC _).1]
  · simp [get_industry_profit_comparison, hres, (cmpLoop_spec fetchC _).2]
  · show hasSubAux m.toList (mkFilter stock m).toList = true
    rw [mkFilter, toList_append, toList_append, toList_append, toList_append]
    exact hasSubAux_append_left _ _ _ (hasSubAux_append_left _ _ _
      (hasSubAux_append_left _ _ _ (hasSubAux_self_append _ _)))

/-- Witness for C10: a concrete failure message without the marker is used
verbatim as the single queried report date. -/
theorem industry_uses_message_verbatim_witness :
    (get_industry_profit_comparison (Except.ok (JVal.obj
        [("code", JVal.num 500), ("message", JVal.str "数据不存在")]))
        (fun _ => Except.error "x") none 2025).1
      = [JVal.str "数据不存在"] :=
  (industry_uses_message_verbatim
      [("code", JVal.num 500), ("message", JVal.str "数据不存在")]
      "数据不存在" "688041.SH" (fun _ => Except.error "x") 2025
      (by decide) rfl (by decide)).1

/-- The seen-set loop equals first-occurrence de-duplication of the elements
not already seen. -/
theorem collectLoop_eq_firstOccur (ds : List String) :
    ∀ seen, collectLoop ds seen
      = firstOccur (ds.filter fun d => !seen.contains d) := by
  induction ds with
  | nil => intro seen; simp [collectLoop, firstOccur]
  | cons d rest ih =>
    intro seen
    by_cases hc : seen.contains d = true
    · simp only [collectLoop, hc, if_true, List.filter_cons, Bool.not_true,
        Bool.false_eq_true, if_false]
      exact ih seen
    · have hc' : seen.contains d = false := Bool.eq_false_iff.mpr hc
      simp only [collectLoop, hc', Bool.false_eq_true, if_false,
        List.filter_cons, Bool.not_false, if_true]
      rw [firstOccur, ih (d :: seen)]
      congr 1
      rw [List.filter_filter]
      congr 1
      apply List.filter_congr
      intro x _
      simp only [List.contains_cons, Bool.not_or, bne]

/-- Elements of the de-duplicated list come from the original list. -/
theorem mem_of_mem_firstOccur (l : List String) :
    ∀ x, x ∈ firstOccur l → x ∈ l := by
  induction l using firstOccur.induct with
  | case1 => intro x hx; simp [firstOccur] at hx
  | case2 d rest ih =>
    intro x hx
    rw [firstOccur] at hx
    rcases List.mem_cons.mp hx with rfl | hx'
    · exact List.mem_cons_self _ _
    · exact List.mem_cons_of_mem _ (List.mem_of_mem_filter (ih x hx'))

/-- First-occurrence de-duplication yields a list without duplicates. -/
theorem firstOccur_nodup (l : List String) : (firstOccur l).Nodup := by
  induction l using firstOccur.induct with
  | case1 => simp [firstOccur]
  | case2 d rest ih =>
    rw [firstOccur]
    refine List.nodup_cons.mpr ⟨?_, ih⟩
    intro hmem
    have h1 := mem_of_mem_firstOccur _ _ hmem
    have h2 := List.of_mem_filter h1
    simp at h2

/-- On well-formed rows the source's date loop runs without exception and
computes exactly the seen-set de-duplication of the truncated dates. -/
theorem reportDatesLoop_good (items : List JVal) :
    ∀ seen, (∀ row ∈ items, goodRow row) →
      reportDatesLoop items seen
        = Except.ok (collectLoop (items.map rowDate) seen) := by
  induction items with
  | nil => intro seen _; rfl
  | cons row rest ih =>
    intro seen hgood
    obtain ⟨fs, s, rfl, hlk, hsp⟩ := hgood _ (List.mem_cons_self _ _)
    have hrest : ∀ r ∈ rest, goodRow r :=
      fun r hr => hgood r (List.mem_cons_of_mem _ hr)
    have hs : s ≠ "" := by
      intro h
      subst h
      exact hsp rfl
    cases hps : pySplit s with
    | nil => exact absurd hps hsp
    | cons f tailsp =>
      have hdate : rowDate (JVal.obj fs) = f := by
        simp [rowDate, hlk, hps]
      by_cases hc : seen.contains f = true
      · have hmem : f ∈ seen := by simpa using hc
        simp [reportDatesLoop, pyDictGet, hlk, JVal.truthy, hs, hps, hmem,
          bind, Except.bind, collectLoop, hdate, ih seen hrest]
      · have hmem : f ∉ seen := by simpa using hc
        simp [reportDatesLoop, pyDictGet, hlk, JVal.truthy, hs, hps, hmem,
          bind, Except.bind, collectLoop, hdate, ih _ hrest, pure,
          Except.pure]

/-- The seen-set loop started empty is exactly first-occurrence
de-duplication. -/
theorem collectLoop_nil_seen (ds : List String) :
    collectLoop ds [] = firstOccur ds := by
  rw [collectLoop_eq_firstOccur]
  congr 1
  simp

/-- C2: for a successful response whose rows are well-formed (each carrying a
string `REPORT_DATE`, possibly with duplicate values across rows),
`get_latest_report_dates` truncates each `REPORT_DATE` to its date-only
prefix (`split()[0]`) and returns the de-duplicated list of those dates,
keeping the first occurrence of each date in the order of the response rows;
in particular the returned list has no duplicates. -/
theorem latest_report_dates_dedup (fs : List (String × JVal)) (res : JVal)
    (rows : List JVal)
    (hok : envelopeOk fs = true)
    (hres : List.lookup "result" fs = some res)
    (hdata : pyIndex res "data" = Except.ok (JVal.arr rows))
    (hne : rows ≠ [])
    (hgood : ∀ row ∈ rows, goodRow row) :
    get_latest_report_dates (Except.ok (JVal.obj fs))
      = JVal.arr ((firstOccur (rows.map rowDate)).map JVal.str)
    ∧ (firstOccur (rows.map rowDate)).Nodup := by
  refine ⟨?_, firstOccur_nodup _⟩
  have h1 : pyIndex (JVal.obj fs) "result" = Except.ok res := by
    simp [pyIndex, hres]
  have htr : (JVal.arr rows).truthy = true := by
    simp [JVal.truthy, List.isEmpty_iff, hne]
  have hloop := reportDatesLoop_good rows [] hgood
  simp [get_latest_report_dates, latestTry, hok, h1, hdata, htr, pyIter,
    bind, Except.bind, hloop, collectLoop_nil_seen, pure, Except.pure]

/-- Witness for C2: a concrete successful response with a duplicated
`REPORT_DATE` across peer rows yields the de-duplicated first-seen date
list. -/
theorem latest_report_dates_dedup_witness :
    get_latest_report_dates (Except.ok (JVal.obj
      [("code", JVal.num 0), ("success", JVal.bool true),
       ("result", JVal.obj [("data", JVal.arr
         [JVal.obj [("REPORT_DATE", JVal.str "2024-09-30 00:00:00")],
          JVal.obj [("REPORT_DATE", JVal.str "2024-09-30 00:00:00")],
          JVal.obj [("REPORT_DATE", JVal.str "2024-06-30 00:00:00")]])])]))
      = JVal.arr ((firstOccur
          ([JVal.obj [("REPORT_DATE", JVal.str "2024-09-30 00:00:00")],
            JVal.obj [("REPORT_DATE", JVal.str "2024-09-30 00:00:00")],
            JVal.obj [("REPORT_DATE", JVal.str "2024-06-30 00:00:00")]].map
            rowDate)).map JVal.str)
    ∧ (firstOccur
        ([JVal.obj [("REPORT_DATE", JVal.str "2024-09-30 00:00:00")],
          JVal.obj [("REPORT_DATE", JVal.str "2024-09-30 00:00:00")],
          JVal.obj [("REPORT_DATE", JVal.str "2024-06-30 00:00:00")]].map
          rowDate)).Nodup :=
  latest_report_dates_dedup
    [("code", JVal.num 0), ("success", JVal.bool true),
     ("result", JVal.obj [("data", JVal.arr
       [JVal.obj [("REPORT_DATE", JVal.str "2024-09-30 00:00:00")],
        JVal.obj [("REPORT_DATE", JVal.str "2024-09-30 00:00:00")],
        JVal.obj [("REPORT_DATE", JVal.str "2024-06-30 00:00:00")]])])]
    (JVal.obj [("data", JVal.arr
       [JVal.obj [("REPORT_DATE", JVal.str "2024-09-30 00:00:00")],
        JVal.obj [("REPORT_DATE", JVal.str "2024-09-30 00:00:00")],
        JVal.obj [("REPORT_DATE", JVal.str "2024-06-30 00:00:00")]])])
    [JVal.obj [("REPORT_DATE", JVal.str "2024-09-30 00:00:00")],
     JVal.obj [("REPORT_DATE", JVal.str "2024-09-30 00:00:00")],
     JVal.obj [("REPORT_DATE", JVal.str "2024-06-30 00:00:00")]]
    (by decide) rfl rfl (List.cons_ne_nil _ _)
    (by
      intro row hrow
      simp only [List.mem_cons, List.not_mem_nil, or_false] at hrow
      rcases hrow with rfl | rfl | rfl
      · exact ⟨_, "2024-09-30 00:00:00", rfl, rfl, by decide⟩
      · exact ⟨_, "2024-09-30 00:00:00", rfl, rfl, by decide⟩
      · exact ⟨_, "2024-06-30 00:00:00", rfl, rfl, by decide⟩)
